import Mathlib

/-!
Verification of the `caplog` crate (src/lib.rs): a test-support log-capture
library.  The crate installs a global `TestLogger` into the `log` facade
exactly once per process (guarded by a `std::sync::Once`), stores captured
records in a `thread_local!` buffer (`LOG_RECORDS`), and exposes a scoped
handle `CapLog` with `get_all`, `find`, `clear`, and a `Drop` impl that
clears the calling thread's buffer.

The embedding below is a shallow one: the per-thread storage is modelled as
a total map from thread ids to lists of `CapRecord`, each operation is the
Lean function obtained by transcribing the body of the corresponding Rust
function, and the `Once`/`set_logger` registration machinery is a small
explicit state machine.
-/

namespace Caplog

/-- The five severity levels of the `log` facade (`log::Level`). -/
inductive Level where
  | trace
  | debug
  | info
  | warn
  | error
deriving DecidableEq, Repr

/-- `log::Record` as seen by a sink: the transient record handed to
`Log::log`.  Its metadata carries the level and target; `args` is the
already-formatted message; module path, file and line are optional
source-location data. -/
structure Record where
  level : Level
  target : String
  args : String
  module_path : Option String
  file : Option String
  line : Option Nat
deriving DecidableEq, Repr

/-- `log::Metadata`: the part of a record the facade shows to
`Log::enabled`. -/
structure Metadata where
  level : Level
  target : String
deriving DecidableEq, Repr

/-- The owned snapshot of one emission (`CapRecord` in src/lib.rs). -/
structure CapRecord where
  level : Level
  target : String
  msg : String
  module_path : Option String
  file : Option String
  line : Option Nat
deriving DecidableEq, Repr

/-- `impl From<&Record> for CapRecord` (src/lib.rs lines 19-30): copy the
level and target out of the metadata, render the arguments to an owned
string, and copy the optional source-location fields. -/
def CapRecord.fromRecord (r : Record) : CapRecord :=
  { level := r.level
    target := r.target
    msg := r.args
    module_path := r.module_path
    file := r.file
    line := r.line }

/-- Thread identities. -/
abbrev ThreadId := Nat

/-- The whole `thread_local!(static LOG_RECORDS ...)` storage: one buffer
(list of captured records, in insertion order) per thread. -/
def GState := ThreadId → List CapRecord

/-- The empty storage: every thread's buffer is empty. -/
def GState.empty : GState := fun _ => []

namespace TestLogger

/-- `TestLogger::enabled` (src/lib.rs lines 36-38): always true. -/
def enabled (_ : Metadata) : Bool :=
  true

/-- `TestLogger::log` (src/lib.rs lines 40-42), run by thread `t`: push the
converted record onto the buffer of the executing thread.  Only thread
`t`'s entry of the storage changes. -/
def log (t : ThreadId) (r : Record) (s : GState) : GState :=
  fun u => if u = t then s t ++ [CapRecord.fromRecord r] else s u

/-- `TestLogger::flush` (src/lib.rs line 44): no-op. -/
def flush (s : GState) : GState := s

end TestLogger

namespace CapLog

/-- `CapLog::get_all` (src/lib.rs lines 61-63), run by thread `t`: clone
every record of the calling thread's buffer, in order.  Returned in
state-passing form (result, state after the call) so that the absence of a
state change is a statement, not a convention. -/
def get_all (t : ThreadId) (s : GState) : List CapRecord × GState :=
  ((s t).map id, s)

/-- `CapLog::find` (src/lib.rs lines 65-77), run by thread `t`: iterate the
calling thread's buffer, keep the records satisfying `matcher`, cloning
each kept one; state-passing form as for `get_all`. -/
def find (t : ThreadId) (matcher : CapRecord → Bool) (s : GState) :
    List CapRecord × GState :=
  (((s t).filter matcher).map id, s)

/-- `CapLog::clear` (src/lib.rs lines 79-81), run by thread `t`: empty the
calling thread's buffer, leaving every other thread's buffer alone. -/
def clear (t : ThreadId) (s : GState) : GState :=
  fun u => if u = t then [] else s u

/-- `impl Drop for CapLog` (src/lib.rs lines 84-88), run by thread `t`:
the body is exactly `self.clear()`. -/
def drop (t : ThreadId) (s : GState) : GState :=
  clear t s

end CapLog

/-- Emit a whole list of records on thread `t`, one `TestLogger::log` call
per record, in order. -/
def emitMany (t : ThreadId) (rs : List Record) (s : GState) : GState :=
  rs.foldl (fun acc r => TestLogger.log t r acc) s

/-- A sink registered with the `log` facade: either this crate's static
`LOGGER` (`TestLogger`) or a sink installed by code outside the crate. -/
inductive Sink where
  | testLogger
  | foreign
deriving DecidableEq, Repr

/-- The possible states of `std::sync::Once` (`LOG_INIT_ONCE`): the closure
has not yet run; it completed; or it panicked while running, poisoning the
`Once` so that every later `call_once` panics at once. -/
inductive OnceState where
  | incomplete
  | complete
  | poisoned
deriving DecidableEq, Repr

/-- `log::LevelFilter` values that matter here: the facade's global maximum
level, `Off` before anyone sets it, `Trace` after `set_max_level`. -/
inductive LevelFilter where
  | off
  | traceFilter
deriving DecidableEq, Repr

/-- The process-wide registration state: the `LOG_INIT_ONCE` cell, the
facade's installed global sink (if any), and its global maximum level. -/
structure RegState where
  once : OnceState
  logger : Option Sink
  maxLevel : LevelFilter
deriving DecidableEq, Repr

/-- The registration state of a fresh process: `Once` not run, no sink
installed, facade max level at its `Off` default. -/
def RegState.fresh : RegState :=
  { once := .incomplete, logger := none, maxLevel := .off }

/-- `CapLog::new` (src/lib.rs lines 51-59).  `LOG_INIT_ONCE.call_once`
runs the closure only from the `incomplete` state; the closure calls
`log::set_logger(&LOGGER)`, which fails iff some sink is already
installed, then on success `log::set_max_level(LevelFilter::Trace)`.
`.expect(...)` turns the failure into a panic, which poisons the `Once`;
`call_once` on a poisoned `Once` panics immediately without running the
closure.  The result is `.ok ()` for a constructed handle and
`.error ()` for a panic, paired with the registration state after the
call. -/
def CapLog.new (rs : RegState) : Except Unit Unit × RegState :=
  match rs.once with
  | .complete => (.ok (), rs)
  | .poisoned => (.error (), rs)
  | .incomplete =>
    match rs.logger with
    | some _ => (.error (), { rs with once := .poisoned })
    | none =>
      (.ok (), { once := .complete, logger := some .testLogger,
                 maxLevel := .traceFilter })

/-- The registration state after the first successful `CapLog::new`. -/
def RegState.registered : RegState :=
  { once := .complete, logger := some .testLogger, maxLevel := .traceFilter }

/-- One buffer-touching step of some thread, for reasoning about
interleaved executions: an emission dispatched to `TestLogger::log`, an
explicit `CapLog::clear`, or a handle drop.  (`CapLog::new`, `get_all`,
`find` and `flush` do not write any buffer.) -/
inductive Op where
  | emit (r : Record)
  | clearOp
  | dropOp
deriving Repr

/-- The effect of one step `(t, op)` — operation `op` executed by thread
`t` — on the thread-local storage. -/
def stepOp : ThreadId × Op → GState → GState
  | (t, .emit r), s => TestLogger.log t r s
  | (t, .clearOp), s => CapLog.clear t s
  | (t, .dropOp), s => CapLog.drop t s

/-- Run an interleaved trace of steps from many threads, in order. -/
def runTrace (steps : List (ThreadId × Op)) (s : GState) : GState :=
  steps.foldl (fun acc st => stepOp st acc) s

/-- A concrete record, as emitted by `tests/caplog.rs`. -/
def sampleRecord : Record :=
  { level := .info, target := "caplog", args := "This is a log",
    module_path := some "caplog", file := some "tests/caplog.rs",
    line := some 9 }

/-- A second concrete record for multi-thread examples. -/
def otherRecord : Record :=
  { level := .debug, target := "caplog", args := "This is another log",
    module_path := some "caplog", file := some "tests/caplog.rs",
    line := some 10 }

/-- One record at a given level, as in `test_all_levels_are_captured`. -/
def recordAt (l : Level) : Record :=
  { level := l, target := "caplog::test_caplog", args := "foo",
    module_path := some "caplog::test_caplog", file := some "src/lib.rs",
    line := some 160 }

/-- One emission at each of the five levels, in ascending order. -/
def fiveLevelRecords : List Record :=
  [recordAt .trace, recordAt .debug, recordAt .info, recordAt .warn,
   recordAt .error]

/- Helper lemmas about the buffer operations. -/

theorem TestLogger.log_self (t : ThreadId) (r : Record) (s : GState) :
    TestLogger.log t r s t = s t ++ [CapRecord.fromRecord r] := by
  simp [TestLogger.log]

theorem TestLogger.log_other {u t : ThreadId} (h : u ≠ t) (r : Record)
    (s : GState) : TestLogger.log t r s u = s u := by
  simp [TestLogger.log, h]

theorem emitMany_self (t : ThreadId) (rs : List Record) (s : GState) :
    emitMany t rs s t = s t ++ rs.map CapRecord.fromRecord := by
  induction rs generalizing s with
  | nil => simp [emitMany]
  | cons r rest ih =>
    simp only [emitMany, List.foldl_cons, List.map_cons] at *
    rw [ih, TestLogger.log_self]
    simp

theorem emitMany_other {u t : ThreadId} (h : u ≠ t) (rs : List Record)
    (s : GState) : emitMany t rs s u = s u := by
  induction rs generalizing s with
  | nil => rfl
  | cons r rest ih =>
    simp only [emitMany, List.foldl_cons] at *
    rw [ih, TestLogger.log_other h]

theorem stepOp_congr {s s' : GState} (st : ThreadId × Op) (t : ThreadId)
    (h : s t = s' t) : stepOp st s t = stepOp st s' t := by
  obtain ⟨u, op⟩ := st
  cases op <;>
    simp only [stepOp, TestLogger.log, CapLog.clear, CapLog.drop] <;>
    split <;> simp_all

theorem stepOp_other {u t : ThreadId} (h : t ≠ u) (op : Op) (s : GState) :
    stepOp (u, op) s t = s t := by
  cases op <;>
    simp only [stepOp, TestLogger.log, CapLog.clear, CapLog.drop] <;>
    simp [h]

theorem runTrace_congr {s s' : GState} (steps : List (ThreadId × Op))
    (t : ThreadId) (h : s t = s' t) :
    runTrace steps s t = runTrace steps s' t := by
  induction steps generalizing s s' with
  | nil => exact h
  | cons st rest ih =>
    exact ih (stepOp_congr st t h)

theorem runTrace_project (steps : List (ThreadId × Op)) (s : GState)
    (t : ThreadId) :
    runTrace steps s t
      = runTrace (steps.filter (fun st => st.1 == t)) s t := by
  induction steps generalizing s with
  | nil => rfl
  | cons st rest ih =>
    obtain ⟨u, op⟩ := st
    by_cases hu : u = t
    · subst hu
      simp only [List.filter_cons, beq_self_eq_true, if_pos, runTrace,
        List.foldl_cons]
      exact ih (stepOp (u, op) s)
    · have hne : ((u, op).1 == t) = false := by simp [hu]
      simp only [List.filter_cons, hne, Bool.false_eq_true, if_neg,
        not_false_iff, runTrace, List.foldl_cons]
      have step1 : runTrace rest (stepOp (u, op) s) t
          = runTrace (rest.filter (fun st => st.1 == t))
              (stepOp (u, op) s) t := ih (stepOp (u, op) s)
      have step2 : stepOp (u, op) s t = s t :=
        stepOp_other (fun he => hu he.symm) op s
      exact step1.trans
        (runTrace_congr (rest.filter (fun st => st.1 == t)) t step2)

theorem runTrace_emits (t : ThreadId) (rs : List Record) (s : GState) :
    runTrace (rs.map (fun r => (t, Op.emit r))) s = emitMany t rs s := by
  induction rs generalizing s with
  | nil => rfl
  | cons r rest ih =>
    simp only [List.map_cons, runTrace, List.foldl_cons, emitMany] at *
    exact ih (stepOp (t, Op.emit r) s)

/- Claim theorems. -/

/-- C1: for every sequence of emissions performed on one thread during a
handle's lifetime — the thread's buffer being empty when the lifetime
starts and no intervening clear — `get_all()` returns exactly the
`CapRecord`s created from those emissions, in emission order, with no
duplication or omission. -/
theorem get_all_returns_exact_emissions (t : ThreadId) (rs : List Record)
    (s : GState) (h : s t = []) :
    (CapLog.get_all t (emitMany t rs s)).1 = rs.map CapRecord.fromRecord := by
  simp [CapLog.get_all, emitMany_self, h]

/-- Witness for C1: emitting the two records of `test_caplog_get_all` on a
fresh thread yields exactly their two captured events, in order. -/
theorem get_all_returns_exact_emissions_witness :
    (CapLog.get_all 0 (emitMany 0 [sampleRecord, otherRecord]
        GState.empty)).1
      = [CapRecord.fromRecord sampleRecord,
         CapRecord.fromRecord otherRecord] :=
  get_all_returns_exact_emissions 0 [sampleRecord, otherRecord]
    GState.empty rfl

/-- C2: for every buffer state and predicate, `find(p)` is the
order-preserving filter of `get_all()` by `p`: a subsequence of
`get_all()` holding exactly the events satisfying `p`, in the same
relative order. -/
theorem find_eq_filter_get_all (t : ThreadId) (p : CapRecord → Bool)
    (s : GState) :
    (CapLog.find t p s).1 = (CapLog.get_all t s).1.filter p ∧
    (CapLog.find t p s).1.Sublist (CapLog.get_all t s).1 ∧
    ∀ e, e ∈ (CapLog.find t p s).1 ↔ e ∈ (CapLog.get_all t s).1 ∧ p e := by
  refine ⟨by simp [CapLog.find, CapLog.get_all], ?_, ?_⟩
  · simp only [CapLog.find, CapLog.get_all, List.map_id]
    exact List.filter_sublist (s t)
  · intro e
    simp [CapLog.find, CapLog.get_all, List.mem_filter]

/-- C3: after `clear()` (explicit, or via handle destruction since `drop`
calls `clear`) `get_all()` returns the empty sequence; clearing an
already-cleared buffer succeeds and leaves it unchanged; one subsequent
emission makes `get_all()` a length-1 sequence holding only the new
event. -/
theorem clear_then_get_all_empty (t : ThreadId) (s : GState) (r : Record) :
    (CapLog.get_all t (CapLog.clear t s)).1 = [] ∧
    (CapLog.get_all t (CapLog.drop t s)).1 = [] ∧
    CapLog.clear t (CapLog.clear t s) = CapLog.clear t s ∧
    (CapLog.get_all t (TestLogger.log t r (CapLog.clear t s))).1
      = [CapRecord.fromRecord r] := by
  refine ⟨by simp [CapLog.get_all, CapLog.clear],
          by simp [CapLog.get_all, CapLog.drop, CapLog.clear], ?_, ?_⟩
  · funext u
    simp only [CapLog.clear]
    split <;> rfl
  · simp [CapLog.get_all, TestLogger.log_self, CapLog.clear]

/-- C4: handle destruction (`impl Drop for CapLog`) has exactly the effect
of `clear()` on the calling thread's storage: for every state, the state
after `drop` equals the state after `clear`. -/
theorem drop_eq_clear (t : ThreadId) (s : GState) :
    CapLog.drop t s = CapLog.clear t s := rfl

/-- C5: if a different sink is already installed process-wide when the
`Once` closure first runs, `CapLog::new` panics (the `expect` fires)
instead of silently continuing, and the failure is not retried: the
`Once` is poisoned, so a later `CapLog::new` panics again without
attempting the installation, the foreign sink staying in place. -/
theorem new_panics_on_foreign_sink (rs : RegState)
    (h1 : rs.once = OnceState.incomplete)
    (h2 : rs.logger = some Sink.foreign) :
    (CapLog.new rs).1 = Except.error () ∧
    (CapLog.new rs).2.once = OnceState.poisoned ∧
    (CapLog.new (CapLog.new rs).2).1 = Except.error () ∧
    (CapLog.new (CapLog.new rs).2).2.logger = some Sink.foreign := by
  simp [CapLog.new, h1, h2]

/-- Witness for C5: a fresh process in which foreign code already
installed its own sink. -/
theorem new_panics_on_foreign_sink_witness :
    (CapLog.new { once := OnceState.incomplete,
                  logger := some Sink.foreign,
                  maxLevel := LevelFilter.off }).1 = Except.error () ∧
    (CapLog.new { once := OnceState.incomplete,
                  logger := some Sink.foreign,
                  maxLevel := LevelFilter.off }).2.once
      = OnceState.poisoned ∧
    (CapLog.new (CapLog.new { once := OnceState.incomplete,
                              logger := some Sink.foreign,
                              maxLevel := LevelFilter.off }).2).1
      = Except.error () ∧
    (CapLog.new (CapLog.new { once := OnceState.incomplete,
                              logger := some Sink.foreign,
                              maxLevel := LevelFilter.off }).2).2.logger
      = some Sink.foreign :=
  new_panics_on_foreign_sink
    { once := OnceState.incomplete, logger := some Sink.foreign,
      maxLevel := LevelFilter.off } rfl rfl

/-- C6: registration is idempotent: the first `CapLog::new` of a fresh
process succeeds, installs the `TestLogger` as the facade's global sink
and sets the global maximum level to `Trace`; every `CapLog::new` after
the `Once` has completed succeeds and leaves the registration state
exactly unchanged. -/
theorem new_registration_idempotent (rs : RegState)
    (h : rs.once = OnceState.complete) :
    CapLog.new RegState.fresh = (Except.ok (), RegState.registered) ∧
    CapLog.new rs = (Except.ok (), rs) := by
  constructor
  · rfl
  · simp [CapLog.new, h]

/-- Witness for C6: the second construction, right after the first one
completed, changes nothing. -/
theorem new_registration_idempotent_witness :
    CapLog.new RegState.fresh = (Except.ok (), RegState.registered) ∧
    CapLog.new RegState.registered = (Except.ok (), RegState.registered) :=
  new_registration_idempotent RegState.registered rfl

/-- C7: `TestLogger::enabled` returns true on every metadata value, and
emitting one record at each of the five levels (as in
`test_all_levels_are_captured`) yields exactly one captured event per
level. -/
theorem enabled_true_all_levels_captured :
    (∀ m : Metadata, TestLogger.enabled m = true) ∧
    ∀ l : Level,
      ((CapLog.find 0 (fun r => r.level == l)
          (emitMany 0 fiveLevelRecords GState.empty)).1).length = 1 := by
  constructor
  · intro m
    rfl
  · intro l
    cases l <;> rfl

/-- C8: an emission on thread `t` appends exactly one converted event at
the end of thread `t`'s buffer, and no other thread's buffer changes. -/
theorem log_appends_exactly_one (t : ThreadId) (r : Record) (s : GState) :
    TestLogger.log t r s t = s t ++ [CapRecord.fromRecord r] ∧
    ∀ u, u ≠ t → TestLogger.log t r s u = s u :=
  ⟨TestLogger.log_self t r s, fun _ hu => TestLogger.log_other hu r s⟩

/-- Witness for C8: thread 0 emits; its own buffer gains the one event
and thread 1's buffer stays empty. -/
theorem log_appends_exactly_one_witness :
    TestLogger.log 0 sampleRecord GState.empty 0
      = [CapRecord.fromRecord sampleRecord] ∧
    TestLogger.log 0 sampleRecord GState.empty 1 = GState.empty 1 :=
  ⟨(log_appends_exactly_one 0 sampleRecord GState.empty).1,
   (log_appends_exactly_one 0 sampleRecord GState.empty).2 1 (by decide)⟩

/-- C9: buffers are thread-isolated.  For any interleaved trace of
buffer-touching operations from any set of threads, what thread `t` sees
through `get_all()` is exactly what it would see had only its own steps
run: steps of other threads never read or write its buffer.  In
particular a thread whose own steps are the emissions of `rs`, started on
a cleared buffer, observes exactly the events of `rs` whatever the other
threads interleave. -/
theorem buffers_thread_isolated (steps : List (ThreadId × Op))
    (s : GState) (t : ThreadId) :
    (CapLog.get_all t (runTrace steps s)).1
      = (CapLog.get_all t
          (runTrace (steps.filter (fun st => st.1 == t)) s)).1 ∧
    ∀ rs : List Record,
      (CapLog.get_all t
          (runTrace (rs.map (fun r => (t, Op.emit r)))
            (CapLog.clear t s))).1
        = rs.map CapRecord.fromRecord := by
  constructor
  · simpa [CapLog.get_all] using runTrace_project steps s t
  · intro rs
    rw [runTrace_emits]
    simp [CapLog.get_all, emitMany_self, CapLog.clear]

/-- C10: the query operations are read-only: `get_all` and `find` return
the storage exactly as they found it. -/
theorem queries_read_only (t : ThreadId) (p : CapRecord → Bool)
    (s : GState) :
    (CapLog.get_all t s).2 = s ∧ (CapLog.find t p s).2 = s :=
  ⟨rfl, rfl⟩

end Caplog
